import Mathlib

set_option maxHeartbeats 1600000

/-!
Verification of the A2UI declarative-UI protocol pipeline of the
CopilotKit `with-a2a-a2ui` repository: schema registry, protocol message
model, renderer surface mutation, and the agent-side generator with its
bounded retry loop, together with the frontend page component.
-/

namespace A2UI

/-- Association-list lookup by string key; the first occurrence wins. -/
def lookupKey {α : Type} : List (String × α) → String → Option α
  | [], _ => none
  | e :: rest, p => if e.1 = p then some e.2 else lookupKey rest p

/-- Store a value at a key: replace the first occurrence in place, or
append a fresh entry at the end when the key is absent. -/
def setKey {α : Type} : List (String × α) → String → α → List (String × α)
  | [], k, v => [(k, v)]
  | e :: rest, k, v => if e.1 = k then (k, v) :: rest else e :: setKey rest k v

/-- Apply a batch of keyed entries in order with `setKey`. -/
def setEntries {α : Type} : List (String × α) → List (String × α) → List (String × α)
  | l, [] => l
  | l, e :: es => setEntries (setKey l e.1 e.2) es

/-- The keys of an association list, in order, duplicates kept. -/
def keysOf {α : Type} (l : List (String × α)) : List String := l.map Prod.fst

/-- First-some choice on options. -/
def orOpt {α : Type} : Option α → Option α → Option α
  | some v, _ => some v
  | none, o => o

/-- The value of the last entry of a batch that carries the given key. -/
def lastWrite {α : Type} : List (String × α) → String → Option α
  | [], _ => none
  | e :: es, p => orOpt (lastWrite es p) (if e.1 = p then some e.2 else none)

/-- Boolean membership of a string in a list of strings. -/
def memStr : List String → String → Bool
  | [], _ => false
  | y :: ys, x => if y = x then true else memStr ys x

/-- Modelled from the spec: an attribute value of a component is either a
literal or a binding path into the data model (the agent code that carries
these values, `agent/agent.py` and the A2UI renderer package, is not under
`src/`). -/
inductive AttrValue where
  | lit (value : String)
  | binding (path : String)
deriving DecidableEq, Repr

/-- Modelled from the spec: a component node of a surface, with a stable
identifier, a type tag, named attributes and an ordered list of child ids
(spec section 3; the implementing renderer code is not under `src/`). -/
structure ComponentNode where
  id : String
  type : String
  attributes : List (String × AttrValue)
  children : List String
deriving DecidableEq, Repr

/-- Modelled from the spec: permitted child-slot arity of a component type
(none, single, or many). -/
inductive ChildArity where
  | leaf
  | single
  | many
deriving DecidableEq, Repr

/-- Modelled from the spec: the shape record the Schema Registry stores for
one component type: its permitted attribute names and child arity. -/
structure TypeSchema where
  allowedAttributes : List String
  arity : ChildArity
deriving DecidableEq, Repr

/-- Modelled from the spec: the closed Schema Registry mapping component
type names (Text, Image, Button, Card, Row, Column, List, Form) to their
permitted attributes and arity; every other name is unregistered (the
registry data in `agent/prompt_builder.py` is not under `src/`). -/
def registry : String → Option TypeSchema
  | "Text" => some ⟨["text"], ChildArity.leaf⟩
  | "Image" => some ⟨["url"], ChildArity.leaf⟩
  | "Button" => some ⟨["label", "action"], ChildArity.leaf⟩
  | "Card" => some ⟨["title"], ChildArity.many⟩
  | "Row" => some ⟨[], ChildArity.many⟩
  | "Column" => some ⟨[], ChildArity.many⟩
  | "List" => some ⟨[], ChildArity.many⟩
  | "Form" => some ⟨["submitLabel"], ChildArity.many⟩
  | _ => none

/-- Modelled from the spec: whether a child count satisfies an arity. -/
def arityOk : ChildArity → Nat → Bool
  | ChildArity.leaf, n => n == 0
  | ChildArity.single, n => n ≤ 1
  | ChildArity.many, _ => true

/-- Modelled from the spec: `isValidComponent(type, attributes, childCount)`
fails closed — an unregistered type, a forbidden attribute name, or an
out-of-arity child count is invalid (spec section 4.1; the validating agent
code is not under `src/`). -/
def isValidComponent (ctype : String) (attrNames : List String) (childCount : Nat) : Bool :=
  match registry ctype with
  | none => false
  | some s => attrNames.all (fun a => memStr s.allowedAttributes a) && arityOk s.arity childCount

/-- Modelled from the spec: the set of attribute names the registry permits
for a type (empty for an unregistered type). -/
def allowedAttributes (ctype : String) : List String :=
  match registry ctype with
  | none => []
  | some s => s.allowedAttributes

/-- Modelled from the spec: the tagged union of the three protocol message
kinds — surface initialization, surface structure, and data population
(spec section 3; the protocol implementation is not under `src/`). -/
inductive ProtocolMessage where
  | beginRendering (rootId : String) (rootType : String)
  | surfaceUpdate (nodes : List ComponentNode)
  | dataModelUpdate (entries : List (String × String))
deriving DecidableEq, Repr

/-- Modelled from the spec: the live renderer state for one surface: the
root id, the id-indexed component nodes, and the bound data model (spec
section 3; the renderer package is not under `src/`). -/
structure Surface where
  rootId : String
  nodes : List (String × ComponentNode)
  dataModel : List (String × String)
deriving DecidableEq, Repr

/-- Modelled from the spec: upsert a batch of component nodes by id into
the node map — insert when the id is new, replace in place when it
exists. -/
def upsertNodes (nodes : List (String × ComponentNode)) (batch : List ComponentNode) :
    List (String × ComponentNode) :=
  setEntries nodes (batch.map (fun n => (n.id, n)))

/-- Modelled from the spec: the Renderer's single-message transition.
`beginRendering` creates or resets the surface (root replaced, nodes and
dataModel cleared); `surfaceUpdate` upserts nodes by id; `dataModelUpdate`
merges entries path-by-path, last write wins (spec section 4.4; the
renderer package is not under `src/`). -/
def applyMessage : Option Surface → ProtocolMessage → Option Surface
  | _, ProtocolMessage.beginRendering rid _ =>
      some { rootId := rid, nodes := [], dataModel := [] }
  | some s, ProtocolMessage.surfaceUpdate batch =>
      some { s with nodes := upsertNodes s.nodes batch }
  | some s, ProtocolMessage.dataModelUpdate entries =>
      some { s with dataModel := setEntries s.dataModel entries }
  | none, ProtocolMessage.surfaceUpdate _ => none
  | none, ProtocolMessage.dataModelUpdate _ => none

/-- Modelled from the spec: the Renderer consumes an ordered message
sequence, strictly sequentially, starting from an absent surface. -/
def applyMessages (s : Option Surface) (ms : List ProtocolMessage) : Option Surface :=
  ms.foldl applyMessage s

/-- Modelled from the spec: whether a target id is reachable from a start
id by following child references in the surface's node map, within the
given fuel. -/
def reachableIn (s : Surface) : Nat → String → String → Bool
  | 0, x, target => x = target
  | Nat.succ fuel, x, target =>
      if x = target then true
      else
        match lookupKey s.nodes x with
        | some n => n.children.any (fun c => reachableIn s fuel c target)
        | none => false

/-- Modelled from the spec: schema validity of a single component node —
its type, its attribute names and its child count pass the registry. -/
def validNode (n : ComponentNode) : Bool :=
  isValidComponent n.type (n.attributes.map Prod.fst) n.children.length

/-- Modelled from the spec: per-message schema validity — every node of a
`surfaceUpdate` passes the registry, and a `beginRendering` names a
registered root type. -/
def msgValid : ProtocolMessage → Bool
  | ProtocolMessage.beginRendering _ rtype => (registry rtype).isSome
  | ProtocolMessage.surfaceUpdate batch => batch.all validNode
  | ProtocolMessage.dataModelUpdate _ => true

/-- Modelled from the spec: scan one `surfaceUpdate` batch against the set
of already-established ids: each node's id must already be established,
and a node establishes its children for the nodes after it. Returns the
grown established set, or none on violation. -/
def checkBatch : List String → List ComponentNode → Option (List String)
  | est, [] => some est
  | est, n :: ns =>
      if memStr est n.id then checkBatch (est ++ n.children) ns else none

/-- Modelled from the spec: the ordering invariant of section 3 — a
`surfaceUpdate` may only carry ids established by a `beginRendering`
naming them as root or introduced earlier as a child target; a
`beginRendering` resets the established set to its root. -/
def checkOrdering : List String → List ProtocolMessage → Bool
  | _, [] => true
  | _, ProtocolMessage.beginRendering rid _ :: ms => checkOrdering [rid] ms
  | est, ProtocolMessage.surfaceUpdate batch :: ms =>
      match checkBatch est batch with
      | some est2 => checkOrdering est2 ms
      | none => false
  | est, ProtocolMessage.dataModelUpdate _ :: ms => checkOrdering est ms

/-- Modelled from the spec: the Generator's validation of a whole protocol
message sequence — per-node schema validity plus the ordering
invariant. -/
def validateMessages (ms : List ProtocolMessage) : Bool :=
  ms.all msgValid && checkOrdering [] ms

/-- All child ids introduced by a batch of component nodes. -/
def batchIntroduced : List ComponentNode → List String
  | [] => []
  | n :: ns => n.children ++ batchIntroduced ns

/-- The ids a single message can establish: the root of a
`beginRendering`, or the child targets of a `surfaceUpdate`. -/
def introducedBy : ProtocolMessage → List String
  | ProtocolMessage.beginRendering rid _ => [rid]
  | ProtocolMessage.surfaceUpdate batch => batchIntroduced batch
  | ProtocolMessage.dataModelUpdate _ => []

/-- All ids established anywhere in a message sequence. -/
def introduced : List ProtocolMessage → List String
  | [] => []
  | m :: ms => introducedBy m ++ introduced ms

/-- The fixed delimiter token separating the conversational text from the
serialized A2UI message array in a model response (documented in the
repository's CLAUDE.md, Agent Response Format). -/
def uiDelimiter : String := "---a2ui_JSON---"

/-- Find the first occurrence of a delimiter inside a character list and
split around it; none when the delimiter is absent. -/
def splitAtDelim (delim : List Char) : List Char → Option (List Char × List Char)
  | [] => none
  | c :: cs =>
      if delim.isPrefixOf (c :: cs) then some ([], (c :: cs).drop delim.length)
      else
        match splitAtDelim delim cs with
        | some (pre, post) => some (c :: pre, post)
        | none => none

/-- Modelled from the spec: split a model response on the fixed delimiter;
when the delimiter is absent the whole response is the text part and there
is no serialized payload (spec section 4.2 step 2; the splitting agent
code in `agent/agent.py` is not under `src/`). -/
def splitResponse (resp : String) : String × Option String :=
  match splitAtDelim uiDelimiter.data resp.data with
  | none => (resp, none)
  | some (pre, post) => (String.mk pre, some (String.mk post))

/-- Modelled from the spec: the Generator's two-part output — the free
conversational text, the validated protocol message sequence, an optional
operator diagnostic, and the number of model attempts consumed. -/
structure GenResult where
  text : String
  messages : List ProtocolMessage
  diagnostic : Option String
  attemptsUsed : Nat
deriving DecidableEq, Repr

/-- Modelled from the spec: parse the serialized payload and keep it only
when it validates against the registry and the ordering invariant; a parse
failure is treated exactly like a validation failure (spec section 4.2
steps 3-4). -/
def parseAttempt (parse : String → Option (List ProtocolMessage)) (payload : String) :
    Option (List ProtocolMessage) :=
  match parse payload with
  | none => none
  | some ms => if validateMessages ms then some ms else none

/-- Modelled from the spec: the outcome of one generation attempt — the
text part together with the message array to forward (empty when the
delimiter is absent), or none when the attempt failed parsing or
validation. -/
def attemptOutcome (parse : String → Option (List ProtocolMessage)) (resp : String) :
    Option (String × List ProtocolMessage) :=
  match splitResponse resp with
  | (text, none) => some (text, [])
  | (text, some payload) =>
      match parseAttempt parse payload with
      | some ms => some (text, ms)
      | none => none

/-- Whether one generation attempt fails (a payload is present but does
not parse and validate); a delimiter-free response is a success. -/
def attemptFails (parse : String → Option (List ProtocolMessage)) (resp : String) : Bool :=
  (attemptOutcome parse resp).isNone

/-- Modelled from the spec: the degraded terminal outcome — the text part
alone, no protocol messages, and an operator diagnostic (spec section 4.2
step 5). -/
def degraded (text : String) (attempts : Nat) : GenResult :=
  { text := text
    messages := []
    diagnostic := some "a2ui validation failed after retries; degraded to text-only"
    attemptsUsed := attempts }

/-- Modelled from the spec: the Generator's bounded retry loop. `fuel` is
the number of retries still allowed, `attempt` the zero-based index of the
current model invocation, `elapsed` the wall-clock time consumed so far;
`cost` gives each attempt's duration and `timeLimit` the wall-clock
budget. A failed attempt retries while both budgets allow, and otherwise
degrades to text-only (spec sections 4.2 and 5; the retry loop in
`agent/agent.py`, configured by LITELLM_NUM_RETRIES and LITELLM_TIMEOUT,
is not under `src/`). -/
def generateAux (parse : String → Option (List ProtocolMessage)) (model : Nat → String)
    (cost : Nat → Nat) (timeLimit : Nat) : Nat → Nat → Nat → GenResult
  | 0, attempt, _ =>
      match attemptOutcome parse (model attempt) with
      | some (text, ms) =>
          { text := text, messages := ms, diagnostic := none, attemptsUsed := attempt + 1 }
      | none => degraded (splitResponse (model attempt)).1 (attempt + 1)
  | Nat.succ n, attempt, elapsed =>
      match attemptOutcome parse (model attempt) with
      | some (text, ms) =>
          { text := text, messages := ms, diagnostic := none, attemptsUsed := attempt + 1 }
      | none =>
          if timeLimit ≤ elapsed + cost attempt then
            degraded (splitResponse (model attempt)).1 (attempt + 1)
          else generateAux parse model cost timeLimit n (attempt + 1) (elapsed + cost attempt)

/-- Modelled from the spec: a whole Generator turn — up to `maxRetries`
retries after the first attempt, within the wall-clock budget. -/
def generate (parse : String → Option (List ProtocolMessage)) (model : Nat → String)
    (cost : Nat → Nat) (timeLimit : Nat) (maxRetries : Nat) : GenResult :=
  generateAux parse model cost timeLimit maxRetries 0 0

/-- The surface produced by a fresh `beginRendering` followed by one
`surfaceUpdate` batch. -/
def surfaceAfter (rid : String) (batch : List ComponentNode) : Surface :=
  { rootId := rid, nodes := upsertNodes [] batch, dataModel := [] }

/-- An element of the frontend page's rendered tree (from
`src/app/page.tsx`): the CopilotKit provider, the main tag, a div, or the
chat widget. -/
inductive ReactElement where
  | copilotKitProvider (runtimeUrl : String) (showDevConsole : String)
      (renderActivityMessages : List String) (children : List ReactElement)
  | mainTag (className : String) (minHeightStyle : String) (children : List ReactElement)
  | divTag (className : String) (children : List ReactElement)
  | copilotChat (style : String)

/-- Modelled from the spec: the theme configuration imported by the page
(`app/theme.ts` is not under `src/`; its contents are opaque here). -/
def themeConfig : String := "a2ui-theme"

/-- The A2UI message renderer factory applied to the theme (from
`src/app/page.tsx`, `createA2UIMessageRenderer({ theme })`). -/
def createA2UIMessageRenderer (theme : String) : String :=
  "A2UIMessageRenderer(" ++ theme ++ ")"

/-- The single activity-message renderer, constructed once at module load
(from `src/app/page.tsx`). -/
def A2UIMessageRenderer : String := createA2UIMessageRenderer themeConfig

/-- The page's Chat component (from `src/app/page.tsx`): a div wrapping a
single CopilotChat. -/
def Chat : Unit → ReactElement := fun _ =>
  ReactElement.divTag "flex flex-1 flex-col overflow-hidden"
    [ReactElement.copilotChat "flex:1;minHeight:100%"]

/-- The page's Home component (from `src/app/page.tsx`): a
CopilotKitProvider with runtimeUrl "/api/copilotkit", showDevConsole
"auto" and exactly the one A2UI renderer, wrapping a main tag that holds
the single Chat child. It takes no props and reads no mutable state. -/
def Home : Unit → ReactElement := fun _ =>
  ReactElement.copilotKitProvider "/api/copilotkit" "auto" [A2UIMessageRenderer]
    [ReactElement.mainTag "flex min-h-screen flex-1 flex-col overflow-hidden" "100dvh"
      [Chat ()]]

/-- Scenario A root node: a List with two text children. -/
def nodeR1 : ComponentNode := ⟨"r1", "List", [], ["c1", "c2"]⟩

/-- Scenario A first child: a Text literal. -/
def nodeC1 : ComponentNode := ⟨"c1", "Text", [("text", AttrValue.lit "Pizza Place")], []⟩

/-- Scenario A second child: a Text literal. -/
def nodeC2 : ComponentNode := ⟨"c2", "Text", [("text", AttrValue.lit "Sushi Bar")], []⟩

/-- The scenario A surface-update batch. -/
def scenarioBatch : List ComponentNode := [nodeR1, nodeC1, nodeC2]

/-- A component of unregistered type, as in end-to-end scenario C. -/
def carouselNode : ComponentNode := ⟨"r1", "Carousel", [], []⟩

/-- An example surface holding one stale node and one data entry. -/
def staleSurface : Surface :=
  { rootId := "old", nodes := [("old", ⟨"old", "Text", [], []⟩)], dataModel := [("p", "1")] }

theorem lookupKey_setKey_self {α : Type} (l : List (String × α)) (k : String) (v : α) :
    lookupKey (setKey l k v) k = some v := by
  induction l with
  | nil => simp [setKey, lookupKey]
  | cons e rest ih =>
    by_cases h : e.1 = k
    · simp [setKey, h, lookupKey]
    · simp [setKey, h, lookupKey, ih]

theorem lookupKey_setKey_ne {α : Type} (l : List (String × α)) (k p : String) (v : α)
    (h : k ≠ p) : lookupKey (setKey l k v) p = lookupKey l p := by
  induction l with
  | nil => simp [setKey, lookupKey, h]
  | cons e rest ih =>
    by_cases he : e.1 = k
    · have hep : ¬ (e.1 = p) := by rw [he]; exact h
      simp [setKey, he, lookupKey, h, hep]
    · by_cases hp : e.1 = p
      · simp [setKey, he, lookupKey, hp, Ne.symm h]
      · simp [setKey, he, lookupKey, hp, ih]

theorem setKey_of_lookupKey {α : Type} (l : List (String × α)) (k : String) (v : α)
    (h : lookupKey l k = some v) : setKey l k v = l := by
  induction l with
  | nil => simp [lookupKey] at h
  | cons e rest ih =>
    obtain ⟨k', v'⟩ := e
    by_cases he : k' = k
    · subst he
      simp [lookupKey] at h
      simp [setKey, h]
    · simp [lookupKey, he] at h
      simp [setKey, he, ih h]

theorem setKey_setKey_same {α : Type} (l : List (String × α)) (k : String) (v w : α) :
    setKey (setKey l k v) k w = setKey l k w := by
  induction l with
  | nil => simp [setKey]
  | cons e rest ih =>
    by_cases he : e.1 = k
    · simp [setKey, he]
    · simp [setKey, he, ih]

theorem mem_keysOf_setKey {α : Type} (l : List (String × α)) (k : String) (v : α) (p : String) :
    p ∈ keysOf (setKey l k v) ↔ p = k ∨ p ∈ keysOf l := by
  induction l with
  | nil => simp [setKey, keysOf]
  | cons e rest ih =>
    by_cases he : e.1 = k
    · simp [setKey, he, keysOf]
    · simp [setKey, he, keysOf] at ih ⊢
      tauto

theorem setKey_comm_of_mem {α : Type} (l : List (String × α)) (k q : String) (v w : α)
    (hk : k ∈ keysOf l) (hq : q ≠ k) :
    setKey (setKey l k v) q w = setKey (setKey l q w) k v := by
  induction l with
  | nil => simp [keysOf] at hk
  | cons e rest ih =>
    by_cases hek : e.1 = k
    · have hkq : ¬ (k = q) := fun hh => hq hh.symm
      have heq : ¬ (e.1 = q) := by rw [hek]; exact hkq
      simp [setKey, hek, hkq, heq]
    · have hk' : k ∈ keysOf rest := by
        simp [keysOf] at hk
        rcases hk with hh | hh
        · exact absurd hh.symm hek
        · simpa [keysOf] using hh
      by_cases heqq : e.1 = q
      · have hqk : ¬ (q = k) := hq
        simp [setKey, hek, heqq, hqk]
      · simp [setKey, hek, heqq, ih hk']

theorem setEntries_setKey_absorb {α : Type} (es : List (String × α)) :
    ∀ (l : List (String × α)) (k : String) (w : α), k ∈ keysOf l → k ∈ keysOf es →
      setEntries (setKey l k w) es = setEntries l es := by
  induction es with
  | nil =>
    intro l k w _ hke
    simp [keysOf] at hke
  | cons e es' ih =>
    intro l k w hkl hke
    by_cases hek : e.1 = k
    · simp only [setEntries]
      rw [hek, setKey_setKey_same]
    · have hke' : k ∈ keysOf es' := by
        simp [keysOf] at hke
        rcases hke with hh | hh
        · exact absurd hh.symm hek
        · simpa [keysOf] using hh
      simp only [setEntries]
      rw [setKey_comm_of_mem l k e.1 w e.2 hkl hek]
      exact ih (setKey l e.1 e.2) k w (by rw [mem_keysOf_setKey]; right; exact hkl) hke'

theorem lookupKey_setEntries_not_mem {α : Type} (es : List (String × α)) :
    ∀ (l : List (String × α)) (p : String), p ∉ keysOf es →
      lookupKey (setEntries l es) p = lookupKey l p := by
  induction es with
  | nil => intro l p _; rfl
  | cons e es' ih =>
    intro l p hp
    have hpe : ¬ (e.1 = p) := by
      intro hh
      exact hp (by simp [keysOf, hh])
    have hp' : p ∉ keysOf es' := by
      intro hh
      exact hp (by simp [keysOf] at hh ⊢; right; simpa [keysOf] using hh)
    simp only [setEntries]
    rw [ih _ p hp', lookupKey_setKey_ne _ _ _ _ hpe]

theorem mem_keysOf_setEntries {α : Type} (es : List (String × α)) :
    ∀ (l : List (String × α)) (p : String),
      p ∈ keysOf (setEntries l es) ↔ p ∈ keysOf l ∨ p ∈ keysOf es := by
  induction es with
  | nil => intro l p; simp [setEntries, keysOf]
  | cons e es' ih =>
    intro l p
    simp only [setEntries]
    rw [ih, mem_keysOf_setKey]
    simp [keysOf]
    tauto

theorem lookupKey_setEntries {α : Type} (es : List (String × α)) :
    ∀ (l : List (String × α)) (p : String),
      lookupKey (setEntries l es) p = orOpt (lastWrite es p) (lookupKey l p) := by
  induction es with
  | nil => intro l p; simp [setEntries, lastWrite, orOpt]
  | cons e es' ih =>
    intro l p
    simp only [setEntries, lastWrite]
    rw [ih]
    cases hlw : lastWrite es' p with
    | some v => simp [orOpt]
    | none =>
      simp only [orOpt]
      by_cases hep : e.1 = p
      · rw [hep, lookupKey_setKey_self]
        simp [hep, orOpt]
      · rw [lookupKey_setKey_ne _ _ _ _ hep]
        simp [hep, orOpt]

theorem setEntries_append {α : Type} (xs : List (String × α)) :
    ∀ (ys l : List (String × α)),
      setEntries l (xs ++ ys) = setEntries (setEntries l xs) ys := by
  induction xs with
  | nil => intro ys l; rfl
  | cons x xs' ih =>
    intro ys l
    simp only [List.cons_append, setEntries]
    exact ih ys _

theorem setEntries_replay {α : Type} (esB : List (String × α)) :
    ∀ (esA l : List (String × α)),
      setEntries (setEntries l (esA ++ esB)) esB = setEntries l (esA ++ esB) := by
  induction esB with
  | nil => intro esA l; rfl
  | cons e esB' ih =>
    intro esA l
    have hsplit : esA ++ e :: esB' = (esA ++ [e]) ++ esB' := by simp
    rw [hsplit]
    simp only [setEntries]
    by_cases hk : e.1 ∈ keysOf esB'
    · have hmem : e.1 ∈ keysOf (setEntries l ((esA ++ [e]) ++ esB')) := by
        rw [mem_keysOf_setEntries]
        right
        simp [keysOf]
      rw [setEntries_setKey_absorb esB' _ e.1 e.2 hmem hk]
      exact ih (esA ++ [e]) l
    · have hlook : lookupKey (setEntries l ((esA ++ [e]) ++ esB')) e.1 = some e.2 := by
        rw [setEntries_append (esA ++ [e]) esB' l,
          lookupKey_setEntries_not_mem esB' _ _ hk,
          setEntries_append esA [e] l]
        simp only [setEntries]
        exact lookupKey_setKey_self _ _ _
      rw [setKey_of_lookupKey _ e.1 e.2 hlook]
      exact ih (esA ++ [e]) l

theorem setEntries_idem {α : Type} (l es : List (String × α)) :
    setEntries (setEntries l es) es = setEntries l es := by
  have h := setEntries_replay es [] l
  simpa using h

theorem memStr_eq_true_iff (l : List String) (x : String) : memStr l x = true ↔ x ∈ l := by
  induction l with
  | nil => simp [memStr]
  | cons y ys ih =>
    by_cases h : y = x
    · simp [memStr, h]
    · simp [memStr, h, ih, Ne.symm h]

theorem keysOf_nodePairs (batch : List ComponentNode) :
    keysOf (batch.map (fun n => (n.id, n))) = batch.map ComponentNode.id := by
  induction batch with
  | nil => rfl
  | cons n ns ih => simp [keysOf] at ih ⊢

theorem checkBatch_est (ns : List ComponentNode) :
    ∀ (est est2 : List String), checkBatch est ns = some est2 →
      est2 = est ++ batchIntroduced ns := by
  induction ns with
  | nil =>
    intro est est2 h
    simp [checkBatch] at h
    simp [batchIntroduced, h.symm]
  | cons n ns' ih =>
    intro est est2 h
    by_cases hm : memStr est n.id
    · simp only [checkBatch, if_pos hm] at h
      rw [ih _ _ h]
      simp [batchIntroduced]
    · simp [checkBatch, hm] at h

theorem checkBatch_sound (nsA : List ComponentNode) :
    ∀ (est : List String) (n : ComponentNode) (nsB : List ComponentNode)
      (est2 : List String), checkBatch est (nsA ++ n :: nsB) = some est2 →
      n.id ∈ est ∨ n.id ∈ batchIntroduced nsA := by
  induction nsA with
  | nil =>
    intro est n nsB est2 h
    by_cases hm : memStr est n.id
    · left
      exact (memStr_eq_true_iff est n.id).mp hm
    · simp [checkBatch, hm] at h
  | cons m nsA' ih =>
    intro est n nsB est2 h
    by_cases hm : memStr est m.id
    · simp only [List.cons_append, checkBatch, if_pos hm] at h
      rcases ih _ n nsB est2 h with hin | hin
      · rcases List.mem_append.mp hin with hin2 | hin2
        · exact Or.inl hin2
        · right
          simp [batchIntroduced, hin2]
      · right
        simp [batchIntroduced, hin]
    · simp [checkBatch, hm] at h

theorem checkOrdering_sound (pre : List ProtocolMessage) :
    ∀ (est : List String) (nsA : List ComponentNode) (n : ComponentNode)
      (nsB : List ComponentNode) (post : List ProtocolMessage),
      checkOrdering est (pre ++ ProtocolMessage.surfaceUpdate (nsA ++ n :: nsB) :: post) = true →
      n.id ∈ est ∨ n.id ∈ introduced pre ∨ n.id ∈ batchIntroduced nsA := by
  induction pre with
  | nil =>
    intro est nsA n nsB post h
    simp only [List.nil_append, checkOrdering] at h
    cases hcb : checkBatch est (nsA ++ n :: nsB) with
    | none => rw [hcb] at h; simp at h
    | some est2 =>
      rcases checkBatch_sound nsA est n nsB est2 hcb with hin | hin
      · exact Or.inl hin
      · exact Or.inr (Or.inr hin)
  | cons m pre' ih =>
    intro est nsA n nsB post h
    cases m with
    | beginRendering rid rtype =>
      simp only [List.cons_append, checkOrdering] at h
      rcases ih [rid] nsA n nsB post h with hin | hin | hin
      · right; left
        simp [introduced, introducedBy]
        left
        simpa using hin
      · right; left
        simp [introduced, introducedBy]
        tauto
      · exact Or.inr (Or.inr hin)
    | surfaceUpdate batch =>
      simp only [List.cons_append, checkOrdering] at h
      cases hcb : checkBatch est batch with
      | none => rw [hcb] at h; simp at h
      | some est2 =>
        rw [hcb] at h
        have hest2 := checkBatch_est batch est est2 hcb
        rcases ih est2 nsA n nsB post h with hin | hin | hin
        · rw [hest2] at hin
          rcases List.mem_append.mp hin with hin2 | hin2
          · exact Or.inl hin2
          · right; left
            simp [introduced, introducedBy]
            tauto
        · right; left
          simp [introduced, introducedBy] at hin ⊢
          tauto
        · exact Or.inr (Or.inr hin)
    | dataModelUpdate entries =>
      simp only [List.cons_append, checkOrdering] at h
      rcases ih est nsA n nsB post h with hin | hin | hin
      · exact Or.inl hin
      · right; left
        simp [introduced, introducedBy]
        tauto
      · exact Or.inr (Or.inr hin)

theorem attemptOutcome_valid (parse : String → Option (List ProtocolMessage))
    (resp text : String) (ms : List ProtocolMessage)
    (h : attemptOutcome parse resp = some (text, ms)) :
    ms = [] ∨ validateMessages ms = true := by
  unfold attemptOutcome at h
  rcases hsp : splitResponse resp with ⟨t, payload⟩
  rw [hsp] at h
  cases payload with
  | none =>
    simp at h
    exact Or.inl h.2
  | some payload =>
    simp only at h
    unfold parseAttempt at h
    cases hp : parse payload with
    | none => rw [hp] at h; simp at h
    | some ms0 =>
      rw [hp] at h
      by_cases hv : validateMessages ms0 = true
      · simp [hv] at h
        right
        rw [← h.2]
        exact hv
      · simp [hv] at h

theorem generateAux_valid (parse : String → Option (List ProtocolMessage))
    (model : Nat → String) (cost : Nat → Nat) (timeLimit : Nat) :
    ∀ (fuel attempt elapsed : Nat),
      (generateAux parse model cost timeLimit fuel attempt elapsed).messages = [] ∨
      validateMessages
        (generateAux parse model cost timeLimit fuel attempt elapsed).messages = true := by
  intro fuel
  induction fuel with
  | zero =>
    intro attempt elapsed
    cases ho : attemptOutcome parse (model attempt) with
    | none => simp [generateAux, ho, degraded]
    | some r =>
      obtain ⟨t, ms⟩ := r
      have hv := attemptOutcome_valid parse (model attempt) t ms ho
      simp [generateAux, ho]
      exact hv
  | succ n ih =>
    intro attempt elapsed
    cases ho : attemptOutcome parse (model attempt) with
    | none =>
      by_cases ht : timeLimit ≤ elapsed + cost attempt
      · simp [generateAux, ho, ht, degraded]
      · simp only [generateAux, ho, if_neg ht]
        exact ih (attempt + 1) (elapsed + cost attempt)
    | some r =>
      obtain ⟨t, ms⟩ := r
      have hv := attemptOutcome_valid parse (model attempt) t ms ho
      simp [generateAux, ho]
      exact hv

theorem generateAux_all_fail (parse : String → Option (List ProtocolMessage))
    (model : Nat → String) (cost : Nat → Nat) (timeLimit : Nat)
    (h : ∀ k, attemptOutcome parse (model k) = none) :
    ∀ (fuel attempt elapsed : Nat),
      (generateAux parse model cost timeLimit fuel attempt elapsed).messages = [] ∧
      (generateAux parse model cost timeLimit fuel attempt elapsed).diagnostic.isSome = true := by
  intro fuel
  induction fuel with
  | zero =>
    intro attempt elapsed
    simp [generateAux, h attempt, degraded]
  | succ n ih =>
    intro attempt elapsed
    by_cases ht : timeLimit ≤ elapsed + cost attempt
    · simp [generateAux, h attempt, ht, degraded]
    · simp only [generateAux, h attempt, if_neg ht]
      exact ih (attempt + 1) (elapsed + cost attempt)

theorem generateAux_attempts_le (parse : String → Option (List ProtocolMessage))
    (model : Nat → String) (cost : Nat → Nat) (timeLimit : Nat) :
    ∀ (fuel attempt elapsed : Nat),
      (generateAux parse model cost timeLimit fuel attempt elapsed).attemptsUsed ≤
        attempt + fuel + 1 := by
  intro fuel
  induction fuel with
  | zero =>
    intro attempt elapsed
    cases ho : attemptOutcome parse (model attempt) with
    | none => simp [generateAux, ho, degraded]
    | some r =>
      obtain ⟨t, ms⟩ := r
      simp [generateAux, ho]
  | succ n ih =>
    intro attempt elapsed
    cases ho : attemptOutcome parse (model attempt) with
    | none =>
      by_cases ht : timeLimit ≤ elapsed + cost attempt
      · simp [generateAux, ho, ht, degraded]
      · simp only [generateAux, ho, if_neg ht]
        have hrec := ih (attempt + 1) (elapsed + cost attempt)
        omega
    | some r =>
      obtain ⟨t, ms⟩ := r
      simp [generateAux, ho]

theorem generateAux_attempts_time (parse : String → Option (List ProtocolMessage))
    (model : Nat → String) (cost : Nat → Nat) (timeLimit : Nat) (hc : ∀ k, 1 ≤ cost k) :
    ∀ (fuel attempt elapsed : Nat),
      (generateAux parse model cost timeLimit fuel attempt elapsed).attemptsUsed ≤
        attempt + 1 + (timeLimit - elapsed) := by
  intro fuel
  induction fuel with
  | zero =>
    intro attempt elapsed
    cases ho : attemptOutcome parse (model attempt) with
    | none => simp [generateAux, ho, degraded]
    | some r =>
      obtain ⟨t, ms⟩ := r
      simp [generateAux, ho]
  | succ n ih =>
    intro attempt elapsed
    cases ho : attemptOutcome parse (model attempt) with
    | none =>
      by_cases ht : timeLimit ≤ elapsed + cost attempt
      · simp [generateAux, ho, ht, degraded]
      · simp only [generateAux, ho, if_neg ht]
        have hrec := ih (attempt + 1) (elapsed + cost attempt)
        have hcost := hc attempt
        omega
    | some r =>
      obtain ⟨t, ms⟩ := r
      simp [generateAux, ho]

/-- Claim C1: for every turn in which the Generator exhausts its retry
budget — every generation attempt failed validation or parsing — the
output carries the free-text part only with an empty protocol message
sequence, a diagnostic is surfaced, and no ProtocolMessage reaches the
Renderer (feeding the forwarded sequence to the Renderer creates no
surface). -/
theorem claim_C1 (parse : String → Option (List ProtocolMessage)) (model : Nat → String)
    (cost : Nat → Nat) (timeLimit maxRetries : Nat)
    (h : ∀ k, attemptFails parse (model k) = true) :
    (generate parse model cost timeLimit maxRetries).messages = [] ∧
    (generate parse model cost timeLimit maxRetries).diagnostic.isSome = true ∧
    applyMessages none (generate parse model cost timeLimit maxRetries).messages = none := by
  have h' : ∀ k, attemptOutcome parse (model k) = none := by
    intro k
    have hk := h k
    unfold attemptFails at hk
    rwa [Option.isNone_iff_eq_none] at hk
  have hmain := generateAux_all_fail parse model cost timeLimit h' maxRetries 0 0
  refine ⟨hmain.1, hmain.2, ?_⟩
  unfold generate
  rw [hmain.1]
  rfl

/-- Witness for C1: a model that always emits an unparseable payload. -/
theorem claim_C1_witness :
    (generate (fun _ => none) (fun _ => "hi---a2ui_JSON---bad") (fun _ => 1) 60 3).messages
        = [] ∧
    (generate (fun _ => none) (fun _ => "hi---a2ui_JSON---bad") (fun _ => 1) 60 3).diagnostic.isSome
        = true ∧
    applyMessages none
        (generate (fun _ => none) (fun _ => "hi---a2ui_JSON---bad") (fun _ => 1) 60 3).messages
        = none :=
  claim_C1 (fun _ => none) (fun _ => "hi---a2ui_JSON---bad") (fun _ => 1) 60 3
    (fun _ => by
      show attemptFails (fun _ => none) "hi---a2ui_JSON---bad" = true
      decide)

/-- Claim C2: the Schema Registry fails closed — an unregistered type, a
forbidden attribute name, or an out-of-arity child count each make
`isValidComponent` false; an invalid component anywhere makes validation
reject the whole batch; a failed attempt within budget takes the retry
path (the loop recurses rather than crashing or forwarding or dropping);
and no Generator output ever carries a non-validating message sequence. -/
theorem claim_C2 :
    (∀ (t : String) (attrs : List String) (c : Nat),
        registry t = none → isValidComponent t attrs c = false) ∧
    (∀ (t : String) (s : TypeSchema) (attrs : List String) (c : Nat) (a : String),
        registry t = some s → a ∈ attrs → memStr s.allowedAttributes a = false →
        isValidComponent t attrs c = false) ∧
    (∀ (t : String) (s : TypeSchema) (attrs : List String) (c : Nat),
        registry t = some s → arityOk s.arity c = false →
        isValidComponent t attrs c = false) ∧
    (∀ (ms : List ProtocolMessage) (batch : List ComponentNode) (n : ComponentNode),
        ProtocolMessage.surfaceUpdate batch ∈ ms → n ∈ batch → validNode n = false →
        validateMessages ms = false) ∧
    (∀ (parse : String → Option (List ProtocolMessage)) (model : Nat → String)
        (cost : Nat → Nat) (timeLimit n attempt elapsed : Nat) (text payload : String)
        (msgs : List ProtocolMessage),
        splitResponse (model attempt) = (text, some payload) →
        parse payload = some msgs → validateMessages msgs = false →
        elapsed + cost attempt < timeLimit →
        generateAux parse model cost timeLimit (n + 1) attempt elapsed =
          generateAux parse model cost timeLimit n (attempt + 1) (elapsed + cost attempt)) ∧
    (∀ (parse : String → Option (List ProtocolMessage)) (model : Nat → String)
        (cost : Nat → Nat) (timeLimit fuel attempt elapsed : Nat),
        (generateAux parse model cost timeLimit fuel attempt elapsed).messages = [] ∨
        validateMessages
          (generateAux parse model cost timeLimit fuel attempt elapsed).messages = true) := by
  refine ⟨?_, ?_, ?_, ?_, ?_, ?_⟩
  · intro t attrs c h
    simp [isValidComponent, h]
  · intro t s attrs c a hreg ha hmem
    simp only [isValidComponent, hreg]
    cases hall : attrs.all (fun x => memStr s.allowedAttributes x) with
    | false => simp
    | true =>
      have := List.all_eq_true.mp hall a ha
      rw [hmem] at this
      exact absurd this (by simp)
  · intro t s attrs c hreg harity
    simp only [isValidComponent, hreg, harity, Bool.and_false]
  · intro ms batch n hmem hbn hval
    have h1 : msgValid (ProtocolMessage.surfaceUpdate batch) = false := by
      simp only [msgValid]
      cases hall : batch.all validNode with
      | false => rfl
      | true =>
        have := List.all_eq_true.mp hall n hbn
        rw [hval] at this
        exact absurd this (by simp)
    have h2 : ms.all msgValid = false := by
      cases hall : ms.all msgValid with
      | false => rfl
      | true =>
        have := List.all_eq_true.mp hall _ hmem
        rw [h1] at this
        exact absurd this (by simp)
    simp [validateMessages, h2]
  · intro parse model cost timeLimit n attempt elapsed text payload msgs hsp hp hv ht
    have ho : attemptOutcome parse (model attempt) = none := by
      unfold attemptOutcome
      rw [hsp]
      simp [parseAttempt, hp, hv]
    have ht' : ¬ (timeLimit ≤ elapsed + cost attempt) := by omega
    simp [generateAux, ho, ht']
  · intro parse model cost timeLimit fuel attempt elapsed
    exact generateAux_valid parse model cost timeLimit fuel attempt elapsed

/-- Witness for C2: concrete registry rejections, a rejected batch, an
invoked retry, and the never-forward invariant at a concrete run. -/
theorem claim_C2_witness :
    isValidComponent "Carousel" [] 0 = false ∧
    isValidComponent "Text" ["size"] 0 = false ∧
    isValidComponent "Text" ["text"] 2 = false ∧
    validateMessages [ProtocolMessage.beginRendering "r1" "List",
      ProtocolMessage.surfaceUpdate [carouselNode]] = false ∧
    generateAux (fun _ => some [ProtocolMessage.surfaceUpdate [carouselNode]])
        (fun _ => "hi---a2ui_JSON---x") (fun _ => 1) 60 3 0 0 =
      generateAux (fun _ => some [ProtocolMessage.surfaceUpdate [carouselNode]])
        (fun _ => "hi---a2ui_JSON---x") (fun _ => 1) 60 2 1 1 ∧
    ((generateAux (fun _ => some [ProtocolMessage.surfaceUpdate [carouselNode]])
        (fun _ => "hi---a2ui_JSON---x") (fun _ => 1) 60 3 0 0).messages = [] ∨
      validateMessages
        (generateAux (fun _ => some [ProtocolMessage.surfaceUpdate [carouselNode]])
          (fun _ => "hi---a2ui_JSON---x") (fun _ => 1) 60 3 0 0).messages = true) :=
  ⟨claim_C2.1 "Carousel" [] 0 (by rfl),
   claim_C2.2.1 "Text" ⟨["text"], ChildArity.leaf⟩ ["size"] 0 "size" (by rfl) (by decide)
     (by rfl),
   claim_C2.2.2.1 "Text" ⟨["text"], ChildArity.leaf⟩ ["text"] 2 (by rfl) (by rfl),
   claim_C2.2.2.2.1 [ProtocolMessage.beginRendering "r1" "List",
       ProtocolMessage.surfaceUpdate [carouselNode]] [carouselNode] carouselNode
     (by decide) (by decide) (by rfl),
   claim_C2.2.2.2.2.1 (fun _ => some [ProtocolMessage.surfaceUpdate [carouselNode]])
     (fun _ => "hi---a2ui_JSON---x") (fun _ => 1) 60 2 0 0 "hi" "x"
     [ProtocolMessage.surfaceUpdate [carouselNode]] (by decide) (by rfl) (by rfl)
     (by decide),
   claim_C2.2.2.2.2.2 (fun _ => some [ProtocolMessage.surfaceUpdate [carouselNode]])
     (fun _ => "hi---a2ui_JSON---x") (fun _ => 1) 60 3 0 0⟩

/-- Claim C3: when the fixed delimiter token is absent from the model
response, the Generator returns the whole response as the text part with
an empty message array on the first attempt, with no diagnostic (a valid
terminal outcome), and the Renderer receives no structural messages, so
no surface is created. -/
theorem claim_C3 (parse : String → Option (List ProtocolMessage)) (model : Nat → String)
    (cost : Nat → Nat) (timeLimit maxRetries : Nat)
    (h : splitAtDelim uiDelimiter.data (model 0).data = none) :
    generate parse model cost timeLimit maxRetries =
      { text := model 0, messages := [], diagnostic := none, attemptsUsed := 1 } ∧
    applyMessages none (generate parse model cost timeLimit maxRetries).messages = none := by
  have hsp : splitResponse (model 0) = (model 0, none) := by
    unfold splitResponse
    rw [h]
  have ho : attemptOutcome parse (model 0) = some (model 0, []) := by
    unfold attemptOutcome
    rw [hsp]
  have hg : generate parse model cost timeLimit maxRetries =
      { text := model 0, messages := [], diagnostic := none, attemptsUsed := 1 } := by
    unfold generate
    cases maxRetries with
    | zero => simp [generateAux, ho]
    | succ n => simp [generateAux, ho]
  exact ⟨hg, by rw [hg]; rfl⟩

/-- Witness for C3: a delimiter-free model response. -/
theorem claim_C3_witness :
    generate (fun _ => none) (fun _ => "Here are two options.") (fun _ => 1) 60 3 =
      { text := "Here are two options.", messages := [], diagnostic := none,
        attemptsUsed := 1 } ∧
    applyMessages none
        (generate (fun _ => none) (fun _ => "Here are two options.") (fun _ => 1) 60 3).messages
        = none :=
  claim_C3 (fun _ => none) (fun _ => "Here are two options.") (fun _ => 1) 60 3 (by decide)

/-- Claim C4: a message sequence in which some SurfaceUpdate carries a
node whose id was established neither by a BeginRendering naming it as
root nor by any SurfaceUpdate introducing it as a child target — earlier
in the sequence or earlier in the same batch — is rejected by
validation. -/
theorem claim_C4 (pre : List ProtocolMessage) (nsA : List ComponentNode) (n : ComponentNode)
    (nsB : List ComponentNode) (post : List ProtocolMessage)
    (h1 : n.id ∉ introduced pre) (h2 : n.id ∉ batchIntroduced nsA) :
    validateMessages
      (pre ++ ProtocolMessage.surfaceUpdate (nsA ++ n :: nsB) :: post) = false := by
  cases hord : checkOrdering []
      (pre ++ ProtocolMessage.surfaceUpdate (nsA ++ n :: nsB) :: post) with
  | false => simp [validateMessages, hord]
  | true =>
    exfalso
    rcases checkOrdering_sound pre [] nsA n nsB post hord with hin | hin | hin
    · simp at hin
    · exact h1 hin
    · exact h2 hin

/-- Witness for C4: an update naming an id never established. -/
theorem claim_C4_witness :
    validateMessages [ProtocolMessage.beginRendering "r1" "List",
      ProtocolMessage.surfaceUpdate [⟨"c9", "Text", [], []⟩]] = false :=
  claim_C4 [ProtocolMessage.beginRendering "r1" "List"] [] ⟨"c9", "Text", [], []⟩ [] []
    (by decide) (by decide)

/-- Claim C5: a BeginRendering applied to an existing surface resets it —
root replaced, nodes cleared, dataModel cleared — and afterwards no id
other than the new root is reachable from the new root, so every
component present only in the old tree is unreachable. -/
theorem claim_C5 (s : Surface) (rid rtype : String) :
    applyMessage (some s) (ProtocolMessage.beginRendering rid rtype) =
      some { rootId := rid, nodes := [], dataModel := [] } ∧
    (∀ (fuel : Nat) (x : String), x ≠ rid →
      reachableIn { rootId := rid, nodes := [], dataModel := [] } fuel rid x = false) := by
  refine ⟨rfl, ?_⟩
  intro fuel x hx
  cases fuel with
  | zero =>
    simp only [reachableIn]
    exact decide_eq_false (Ne.symm hx)
  | succ m =>
    simp only [reachableIn]
    rw [if_neg (Ne.symm hx)]
    rfl

/-- Witness for C5: resetting a surface that held a stale node. -/
theorem claim_C5_witness :
    applyMessage (some staleSurface) (ProtocolMessage.beginRendering "r1" "List") =
      some { rootId := "r1", nodes := [], dataModel := [] } ∧
    reachableIn { rootId := "r1", nodes := [], dataModel := [] } 5 "r1" "old" = false :=
  ⟨(claim_C5 staleSurface "r1" "List").1,
   (claim_C5 staleSurface "r1" "List").2 5 "old" (by decide)⟩

/-- Claim C6: a SurfaceUpdate upserts each carried node by id — the
resulting lookup returns the last carried node for a carried id (insert
if new, replace if existing) — and every node whose id is not carried is
left unchanged. -/
theorem claim_C6 (s : Surface) (batch : List ComponentNode) (p : String) :
    applyMessage (some s) (ProtocolMessage.surfaceUpdate batch) =
      some { s with nodes := upsertNodes s.nodes batch } ∧
    lookupKey (upsertNodes s.nodes batch) p =
      orOpt (lastWrite (batch.map (fun n => (n.id, n))) p) (lookupKey s.nodes p) ∧
    (p ∉ batch.map ComponentNode.id →
      lookupKey (upsertNodes s.nodes batch) p = lookupKey s.nodes p) := by
  refine ⟨rfl, ?_, ?_⟩
  · unfold upsertNodes
    exact lookupKey_setEntries _ _ _
  · intro hp
    unfold upsertNodes
    have hk : p ∉ keysOf (batch.map (fun n => (n.id, n))) := by
      rw [keysOf_nodePairs]
      exact hp
    exact lookupKey_setEntries_not_mem _ _ _ hk

/-- Witness for C6: upserting the scenario batch into a surface leaves an
uncarried id untouched. -/
theorem claim_C6_witness :
    applyMessage (some staleSurface) (ProtocolMessage.surfaceUpdate scenarioBatch) =
      some { staleSurface with nodes := upsertNodes staleSurface.nodes scenarioBatch } ∧
    lookupKey (upsertNodes staleSurface.nodes scenarioBatch) "old" =
      lookupKey staleSurface.nodes "old" :=
  ⟨(claim_C6 staleSurface scenarioBatch "old").1,
   (claim_C6 staleSurface scenarioBatch "old").2.2 (by decide)⟩

/-- Claim C7: a DataModelUpdate merges its entries into the surface's
dataModel path by path with last-write-wins per path, and replaying the
identical DataModelUpdate is idempotent: the state after the second
application equals the state after the first. -/
theorem claim_C7 (s : Surface) (entries : List (String × String)) :
    applyMessage (some s) (ProtocolMessage.dataModelUpdate entries) =
      some { s with dataModel := setEntries s.dataModel entries } ∧
    (∀ p, lookupKey (setEntries s.dataModel entries) p =
      orOpt (lastWrite entries p) (lookupKey s.dataModel p)) ∧
    applyMessage (applyMessage (some s) (ProtocolMessage.dataModelUpdate entries))
        (ProtocolMessage.dataModelUpdate entries) =
      applyMessage (some s) (ProtocolMessage.dataModelUpdate entries) := by
  refine ⟨rfl, fun p => lookupKey_setEntries _ _ _, ?_⟩
  simp [applyMessage, setEntries_idem]

/-- Claim C8: the retry loop terminates within the configured attempt
budget, within the wall-clock budget when every attempt takes time, and
once either bound is reached a failing attempt deterministically yields
the degrade-to-text outcome. -/
theorem claim_C8 (parse : String → Option (List ProtocolMessage)) (model : Nat → String)
    (cost : Nat → Nat) (timeLimit maxRetries : Nat) :
    (generate parse model cost timeLimit maxRetries).attemptsUsed ≤ maxRetries + 1 ∧
    ((∀ k, 1 ≤ cost k) →
      (generate parse model cost timeLimit maxRetries).attemptsUsed ≤ timeLimit + 1) ∧
    (∀ attempt elapsed, attemptFails parse (model attempt) = true →
      generateAux parse model cost timeLimit 0 attempt elapsed =
        degraded (splitResponse (model attempt)).1 (attempt + 1)) ∧
    (∀ fuel attempt elapsed, attemptFails parse (model attempt) = true →
      timeLimit ≤ elapsed + cost attempt →
      generateAux parse model cost timeLimit (fuel + 1) attempt elapsed =
        degraded (splitResponse (model attempt)).1 (attempt + 1)) := by
  refine ⟨?_, ?_, ?_, ?_⟩
  · have hb := generateAux_attempts_le parse model cost timeLimit maxRetries 0 0
    unfold generate
    omega
  · intro hc
    have hb := generateAux_attempts_time parse model cost timeLimit hc maxRetries 0 0
    unfold generate
    omega
  · intro attempt elapsed hf
    have ho : attemptOutcome parse (model attempt) = none := by
      unfold attemptFails at hf
      rwa [Option.isNone_iff_eq_none] at hf
    simp [generateAux, ho]
  · intro fuel attempt elapsed hf ht
    have ho : attemptOutcome parse (model attempt) = none := by
      unfold attemptFails at hf
      rwa [Option.isNone_iff_eq_none] at hf
    simp [generateAux, ho, ht]

/-- Witness for C8: both bounds at a concrete always-failing model. -/
theorem claim_C8_witness :
    (generate (fun _ => none) (fun _ => "a---a2ui_JSON---b") (fun _ => 1) 60 3).attemptsUsed
        ≤ 4 ∧
    (generate (fun _ => none) (fun _ => "a---a2ui_JSON---b") (fun _ => 1) 60 3).attemptsUsed
        ≤ 61 ∧
    generateAux (fun _ => none) (fun _ => "a---a2ui_JSON---b") (fun _ => 1) 60 0 7 0 =
      degraded (splitResponse "a---a2ui_JSON---b").1 8 ∧
    generateAux (fun _ => none) (fun _ => "a---a2ui_JSON---b") (fun _ => 1) 60 3 5 59 =
      degraded (splitResponse "a---a2ui_JSON---b").1 6 :=
  ⟨(claim_C8 (fun _ => none) (fun _ => "a---a2ui_JSON---b") (fun _ => 1) 60 3).1,
   (claim_C8 (fun _ => none) (fun _ => "a---a2ui_JSON---b") (fun _ => 1) 60 3).2.1
     (fun _ => Nat.le_refl 1),
   (claim_C8 (fun _ => none) (fun _ => "a---a2ui_JSON---b") (fun _ => 1) 60 3).2.2.1 7 0
     (by decide),
   (claim_C8 (fun _ => none) (fun _ => "a---a2ui_JSON---b") (fun _ => 1) 60 3).2.2.2 2 5 59
     (by decide) (by decide)⟩

/-- Claim C9: a begin-then-update sequence accepted by validation has
every node accepted by the Schema Registry, and feeding it to the
Renderer yields a surface whose node ids are exactly the ids of the input
batch. -/
theorem claim_C9 (rid rtype : String) (batch : List ComponentNode)
    (h : validateMessages [ProtocolMessage.beginRendering rid rtype,
      ProtocolMessage.surfaceUpdate batch] = true) :
    (∀ n, n ∈ batch → validNode n = true) ∧
    applyMessages none [ProtocolMessage.beginRendering rid rtype,
      ProtocolMessage.surfaceUpdate batch] = some (surfaceAfter rid batch) ∧
    (∀ x, x ∈ keysOf (surfaceAfter rid batch).nodes ↔ x ∈ batch.map ComponentNode.id) := by
  refine ⟨?_, rfl, ?_⟩
  · intro n hn
    unfold validateMessages at h
    rw [Bool.and_eq_true] at h
    have hall := h.1
    have h2 := List.all_eq_true.mp hall (ProtocolMessage.surfaceUpdate batch) (by simp)
    simp only [msgValid] at h2
    exact List.all_eq_true.mp h2 n hn
  · intro x
    show x ∈ keysOf (upsertNodes [] batch) ↔ _
    unfold upsertNodes
    rw [mem_keysOf_setEntries, keysOf_nodePairs]
    simp [keysOf]

/-- Witness for C9: end-to-end scenario A. -/
theorem claim_C9_witness :
    validNode nodeC1 = true ∧
    applyMessages none [ProtocolMessage.beginRendering "r1" "List",
      ProtocolMessage.surfaceUpdate scenarioBatch] = some (surfaceAfter "r1" scenarioBatch) ∧
    ("c1" ∈ keysOf (surfaceAfter "r1" scenarioBatch).nodes ↔
      "c1" ∈ scenarioBatch.map ComponentNode.id) :=
  ⟨(claim_C9 "r1" "List" scenarioBatch (by decide)).1 nodeC1 (by decide),
   (claim_C9 "r1" "List" scenarioBatch (by decide)).2.1,
   (claim_C9 "r1" "List" scenarioBatch (by decide)).2.2 "c1"⟩

/-- Claim C10: the page's Home component is deterministic and closed over
constants — any two invocations return the same element tree: a
CopilotKitProvider with runtimeUrl "/api/copilotkit", showDevConsole
"auto" and exactly one activity-message renderer (constructed once at
module load), containing the single Chat child wrapping CopilotChat. -/
theorem claim_C10 :
    ∀ (u v : Unit), Home u = Home v ∧
      Home u = ReactElement.copilotKitProvider "/api/copilotkit" "auto" [A2UIMessageRenderer]
        [ReactElement.mainTag "flex min-h-screen flex-1 flex-col overflow-hidden" "100dvh"
          [Chat ()]] ∧
      [A2UIMessageRenderer].length = 1 := by
  intro u v
  exact ⟨rfl, rfl, rfl⟩

end A2UI
